import Mathlib

/-!
Verification of the rewards-program core (`rewardsCalculator.js` and
`pagination.js`).

Shallow embedding of the reward-points computation and pagination utilities of
the customer rewards program.  JavaScript numbers are modelled as exact
rationals (`ℚ`); JavaScript values as the inductive `JSValue`; operations that
can throw a `TypeError` (property access on `null`/`undefined`) return
`Except String _`.
-/

namespace Rewards

/-- A JavaScript runtime value, as far as the rewards core observes it:
numbers (modelled as exact rationals), strings, booleans, `null`, `undefined`,
plain objects (own enumerable string-keyed properties in insertion order) and
arrays. -/
inductive JSValue where
  | num : ℚ → JSValue
  | str : String → JSValue
  | bool : Bool → JSValue
  | null : JSValue
  | undefined : JSValue
  | object : List (String × JSValue) → JSValue
  | array : List JSValue → JSValue
deriving Repr

/-- Numeric value of a list of decimal digit characters (most significant first). -/
def digitsVal (cs : List Char) : ℕ :=
  cs.foldl (fun a c => 10 * a + (c.toNat - 48)) 0

/-- Parse an unsigned JavaScript decimal literal: `digits`, `digits.digits`,
`digits.` or `.digits` (exponents, hex literals and the literal `Infinity`
are outside the model). -/
def parseMantissa : List Char → Option ℚ
  | cs =>
    match cs.splitOn '.' with
    | [a] =>
      if a ≠ [] ∧ a.all Char.isDigit then some (digitsVal a) else none
    | [a, b] =>
      if (a ≠ [] ∨ b ≠ []) ∧ a.all Char.isDigit ∧ b.all Char.isDigit then
        some ((digitsVal a : ℚ) + (digitsVal b : ℚ) / 10 ^ b.length)
      else none
    | _ => none

/-- Models the ECMAScript string-to-number coercion `Number(s)` for decimal
numerals: surrounding whitespace is trimmed, the empty (or all-whitespace)
string coerces to `0`, an optionally signed decimal numeral to its value, and
everything else to NaN (`none`). -/
def jsStringToNumber (s : String) : Option ℚ :=
  match s.trim.toList with
  | [] => some 0
  | '+' :: rest => parseMantissa rest
  | '-' :: rest => (parseMantissa rest).map (fun q => -q)
  | cs => parseMantissa cs

/-- Models the ECMAScript `ToNumber` coercion (`Number(v)`), with NaN as
`none`: numbers are themselves, numeric strings parse, `null` and `false` are
`0`, `true` is `1`, `undefined` and plain objects are NaN, and an array
coerces through its joined string (so `[]` is `0`, a one-element array coerces
like its element's string, and an array of two or more elements is NaN because
its join contains a comma); a single-element array whose element is itself an
array is outside the model and mapped to NaN. -/
def jsToNumber : JSValue → Option ℚ
  | .num q => some q
  | .str s => jsStringToNumber s
  | .bool b => some (if b then 1 else 0)
  | .null => some 0
  | .undefined => none
  | .object _ => none
  | .array [] => some 0
  | .array [.null] => some 0
  | .array [.undefined] => some 0
  | .array [.num q] => some q
  | .array [.str s] => jsStringToNumber s
  | .array [_] => none
  | .array (_ :: _ :: _) => none

/-- Models JavaScript `Math.round`: half-up rounding, `⌊x + 1/2⌋`. -/
def jsRound (q : ℚ) : ℤ := ⌊q + 1 / 2⌋

/-- The reward tier configuration, mirroring `REWARDS_CONFIG` in
`src/constants.js`. -/
structure RewardsConfigT where
  POINTS_PER_DOLLAR_OVER_100 : ℚ
  POINTS_PER_DOLLAR_50_TO_100 : ℚ
  THRESHOLD_50 : ℚ
  THRESHOLD_100 : ℚ

/-- `REWARDS_CONFIG` from `src/constants.js`. -/
def REWARDS_CONFIG : RewardsConfigT :=
  { POINTS_PER_DOLLAR_OVER_100 := 2
    POINTS_PER_DOLLAR_50_TO_100 := 1
    THRESHOLD_50 := 50
    THRESHOLD_100 := 100 }

/-- The raw (unrounded) points accumulated by the two tier branches of
`calculateRewardPoints` for a validated positive amount. -/
def rawPoints (numAmount : ℚ) : ℚ :=
  if numAmount > REWARDS_CONFIG.THRESHOLD_100 then
    (numAmount - REWARDS_CONFIG.THRESHOLD_100) * REWARDS_CONFIG.POINTS_PER_DOLLAR_OVER_100
      + (REWARDS_CONFIG.THRESHOLD_100 - REWARDS_CONFIG.THRESHOLD_50)
          * REWARDS_CONFIG.POINTS_PER_DOLLAR_50_TO_100
  else if numAmount > REWARDS_CONFIG.THRESHOLD_50 then
    (numAmount - REWARDS_CONFIG.THRESHOLD_50) * REWARDS_CONFIG.POINTS_PER_DOLLAR_50_TO_100
  else 0

/-- `calculateRewardPoints` from `src/utils/rewardsCalculator.js`: coerce the
argument with `Number`, return `0` for NaN or non-positive amounts, otherwise
accumulate tiered points and round the final sum with `Math.round`. -/
def calculateRewardPoints (amount : JSValue) : ℤ :=
  match jsToNumber amount with
  | none => 0
  | some numAmount =>
    if numAmount ≤ 0 then 0
    else jsRound (rawPoints numAmount)

/-- Whether a value is a JavaScript array, modelling `Array.isArray`.  The
guard `!transactions || !Array.isArray(transactions)` used by the collection
operations is equivalent to this test being false, because every array is
truthy. -/
def JSValue.isArr : JSValue → Bool
  | .array _ => true
  | _ => false

/-- Whether a value is a plain object. -/
def JSValue.isObj : JSValue → Bool
  | .object _ => true
  | _ => false

/-- The own properties of an object value (empty for non-objects). -/
def JSValue.fields : JSValue → List (String × JSValue)
  | .object fs => fs
  | _ => []

/-- Models the JavaScript property read `v[key]`: throws a `TypeError` when
`v` is `null` or `undefined`; on an object yields the property value or
`undefined` when absent; on any other primitive or array yields `undefined`
for the non-index keys the rewards core reads. -/
def getField : JSValue → String → Except String JSValue
  | .null, key => .error ("TypeError: Cannot read properties of null (reading " ++ key ++ ")")
  | .undefined, key => .error ("TypeError: Cannot read properties of undefined (reading " ++ key ++ ")")
  | .object fs, key => .ok (((fs.lookup key).getD .undefined))
  | _, _ => .ok .undefined

/-- The `amount` property of a transaction record, as `calculateRewardPoints`
receives it when the record is an object. -/
def amountOf (t : JSValue) : JSValue := (t.fields.lookup "amount").getD .undefined

/-- The `date` property of a transaction record when the record is an object. -/
def dateOf (t : JSValue) : JSValue := (t.fields.lookup "date").getD .undefined

/-- The accumulator loop of `calculateTotalRewardPoints`: the
`transactions.reduce((total, transaction) => total + calculateRewardPoints(transaction.amount), 0)`
call, with the property read on each element made explicit. -/
def totalLoop : List JSValue → ℤ → Except String ℤ
  | [], total => .ok total
  | t :: ts, total => do
    let a ← getField t "amount"
    totalLoop ts (total + calculateRewardPoints a)

/-- `calculateTotalRewardPoints` from `src/utils/rewardsCalculator.js`:
returns `0` for any non-array input, otherwise left-folds
`calculateRewardPoints` over each element's `amount` property. -/
def calculateTotalRewardPoints (transactions : JSValue) : Except String ℤ :=
  match transactions with
  | .array ts => totalLoop ts 0
  | _ => .ok 0

/-- Civil calendar date (year, month in `1..12`) of a day count relative to
1970-01-01, following the standard days-to-civil conversion; this is the
`YearFromTime`/`MonthFromTime` computation the `Date` getters perform. -/
def civilFromDays (z0 : ℤ) : ℤ × ℤ :=
  let z := z0 + 719468
  let era := (if 0 ≤ z then z else z - 146096) / 146097
  let doe := z - era * 146097
  let yoe := (doe - doe / 1460 + doe / 36524 - doe / 146096) / 365
  let y := yoe + era * 400
  let doy := doe - (365 * yoe + yoe / 4 - yoe / 100)
  let mp := (5 * doy + 2) / 153
  let m := if mp < 10 then mp + 3 else mp - 9
  ((if m ≤ 2 then y + 1 else y), m)

/-- Number of days in a month of the proleptic Gregorian calendar. -/
def daysInMonth (y m : ℤ) : ℤ :=
  if m = 2 then (if (y % 4 = 0 ∧ y % 100 ≠ 0) ∨ y % 400 = 0 then 29 else 28)
  else if m = 4 ∨ m = 6 ∨ m = 9 ∨ m = 11 then 30
  else 31

/-- Value of a fixed-width all-digit segment, or `none`. -/
def parseFixedDigits (k : ℕ) (s : String) : Option ℤ :=
  let cs := s.toList
  if cs.length = k ∧ cs.all Char.isDigit then some (digitsVal cs) else none

/-- Parse an ECMAScript date-only string `YYYY`, `YYYY-MM` or `YYYY-MM-DD`
into (year, month in `1..12`); malformed strings and out-of-range fields give
`none` (an Invalid Date). -/
def parseISODate (s : String) : Option (ℤ × ℤ) :=
  match s.splitOn "-" with
  | [ys] => (parseFixedDigits 4 ys).map (fun y => (y, 1))
  | [ys, ms] => do
    let y ← parseFixedDigits 4 ys
    let m ← parseFixedDigits 2 ms
    if 1 ≤ m ∧ m ≤ 12 then pure (y, m) else none
  | [ys, ms, ds] => do
    let y ← parseFixedDigits 4 ys
    let m ← parseFixedDigits 2 ms
    let d ← parseFixedDigits 2 ds
    if 1 ≤ m ∧ m ≤ 12 ∧ 1 ≤ d ∧ d ≤ daysInMonth y m then pure (y, m) else none
  | _ => none

/-- Truncation of a rational toward zero, as `ToIntegerOrInfinity` does. -/
def jsTrunc (q : ℚ) : ℤ := if 0 ≤ q then ⌊q⌋ else -⌊-q⌋

/-- Models `new Date(v)` followed by `getFullYear()`/`getMonth()` in a UTC
environment, yielding (year, month in `1..12`), or `none` for an Invalid Date
(whose getters return NaN): ISO date-only strings are parsed; a number is a
millisecond timestamp (valid when its magnitude is at most `8.64e15`);
`null`, `false` and `true` coerce to the timestamps `0` and `1`; `undefined`
and plain objects give an Invalid Date.  Strings in the implementation-defined
non-ISO formats, strings with a time part, and array arguments are outside
the model and mapped to Invalid Date. -/
def jsDateYearMonth : JSValue → Option (ℤ × ℤ)
  | .str s => parseISODate s
  | .num q =>
    if jsTrunc q ≤ 8640000000000000 ∧ -8640000000000000 ≤ jsTrunc q then
      some (civilFromDays (Int.fdiv (jsTrunc q) 86400000))
    else none
  | .null => some (civilFromDays 0)
  | .bool _ => some (civilFromDays 0)
  | _ => none

/-- The bucket key `` `${date.getFullYear()}-${String(date.getMonth() + 1).padStart(2, '0')}` ``:
for a valid date the year and the two-digit-padded month; for an Invalid Date
both getters return NaN, so the key is the literal string `"NaN-NaN"`. -/
def monthKey : Option (ℤ × ℤ) → String
  | none => "NaN-NaN"
  | some (y, m) =>
    toString y ++ "-" ++ (if m < 10 then "0" ++ toString m else toString m)

/-- The month bucket key of a transaction record. -/
def keyOf (t : JSValue) : String := monthKey (jsDateYearMonth (dateOf t))

/-- Models `if (!acc[key]) acc[key] = 0; acc[key] += p` on a string-keyed
object in insertion order: add to the existing entry in place, or append a
new entry at the end. -/
def bumpKey : List (String × ℤ) → String → ℤ → List (String × ℤ)
  | [], key, p => [(key, p)]
  | (k, v) :: rest, key, p =>
    if k = key then (k, v + p) :: rest else (k, v) :: bumpKey rest key p

/-- The `transactions.forEach` loop of `calculateRewardPointsByMonth`, with
the property reads on each element made explicit. -/
def monthLoop : List JSValue → List (String × ℤ) → Except String (List (String × ℤ))
  | [], acc => .ok acc
  | t :: ts, acc => do
    let d ← getField t "date"
    let key := monthKey (jsDateYearMonth d)
    let a ← getField t "amount"
    monthLoop ts (bumpKey acc key (calculateRewardPoints a))

/-- `calculateRewardPointsByMonth` from `src/utils/rewardsCalculator.js`:
returns the empty mapping for any non-array input, otherwise buckets each
element's points under its month key (insertion order). -/
def calculateRewardPointsByMonth (transactions : JSValue) :
    Except String (List (String × ℤ)) :=
  match transactions with
  | .array ts => monthLoop ts []
  | _ => .ok []

/-- Models the object spread `{...v}`: the own enumerable properties of `v`.
An object contributes its properties, an array its index-keyed elements, a
string its index-keyed characters; other primitives (and `null`/`undefined`,
which spread does not throw on) contribute nothing. -/
def jsSpread : JSValue → List (String × JSValue)
  | .object fs => fs
  | .array xs => xs.enum.map (fun p => (toString p.1, p.2))
  | .str s => s.toList.enum.map (fun p => (toString p.1, JSValue.str p.2.toString))
  | _ => []

/-- Models defining property `key` on an object literal that already holds
`fs`: an existing key keeps its position and receives the new value, a fresh
key is appended at the end. -/
def setKey (fs : List (String × JSValue)) (key : String) (v : JSValue) :
    List (String × JSValue) :=
  if fs.any (fun p => p.1 = key) then
    fs.map (fun p => if p.1 = key then (key, v) else p)
  else fs ++ [(key, v)]

/-- The `transactions.map` loop of `addRewardPointsToTransactions`: each
element becomes `{...transaction, rewardPoints: calculateRewardPoints(transaction.amount)}`,
where the `amount` read throws on `null`/`undefined` elements. -/
def enrichLoop : List JSValue → Except String (List JSValue)
  | [] => .ok []
  | t :: ts => do
    let a ← getField t "amount"
    let rest ← enrichLoop ts
    pure (.object (setKey (jsSpread t) "rewardPoints"
      (.num (calculateRewardPoints a))) :: rest)

/-- `addRewardPointsToTransactions` from `src/utils/rewardsCalculator.js`:
returns the empty array for any non-array input, otherwise maps each element
to a fresh record with a `rewardPoints` property added. -/
def addRewardPointsToTransactions (transactions : JSValue) :
    Except String (List JSValue) :=
  match transactions with
  | .array ts => enrichLoop ts
  | _ => .ok []

/-- The pagination information object returned by `calculatePagination`. -/
structure PaginationResult (α : Type) where
  items : List α
  currentPage : ℤ
  totalPages : ℤ
  totalItems : ℤ
  hasNextPage : Bool
  hasPrevPage : Bool
  startIndex : ℤ
  endIndex : ℤ
deriving Repr, DecidableEq

/-- Models `Array.prototype.slice(start, end)` with integral arguments:
negative indices count from the end and the range is clamped to the array. -/
def jsSlice {α : Type} (l : List α) (start stop : ℤ) : List α :=
  let n : ℤ := l.length
  let s := if start < 0 then max (n + start) 0 else min start n
  let e := if stop < 0 then max (n + stop) 0 else min stop n
  (l.drop s.toNat).take (e - s).toNat

/-- `calculatePagination` from `src/utils/pagination.js`.  A non-array
argument (modelled as `none`) takes the guard branch and yields the fixed
empty result; otherwise the page is clamped, the slice bounds computed, and
the slice taken.  Number arithmetic is modelled exactly over the integers
supplied; `Math.ceil` of the ratio is `⌈totalItems / itemsPerPage⌉`. -/
def calculatePagination {α : Type} (items : Option (List α))
    (currentPage : ℤ) (itemsPerPage : ℤ) : PaginationResult α :=
  match items with
  | none =>
    { items := [], currentPage := 1, totalPages := 0, totalItems := 0
      hasNextPage := false, hasPrevPage := false, startIndex := 0, endIndex := 0 }
  | some l =>
    let totalItems : ℤ := l.length
    let totalPages : ℤ := ⌈(totalItems : ℚ) / (itemsPerPage : ℚ)⌉
    let validCurrentPage : ℤ := max 1 (min currentPage totalPages)
    let startIndex := (validCurrentPage - 1) * itemsPerPage
    let endIndex := min (startIndex + itemsPerPage) totalItems
    { items := jsSlice l startIndex endIndex
      currentPage := validCurrentPage
      totalPages := totalPages
      totalItems := totalItems
      hasNextPage := decide (validCurrentPage < totalPages)
      hasPrevPage := decide (validCurrentPage > 1)
      startIndex := startIndex + 1
      endIndex := endIndex }

/-- The ascending integer interval `[a..b]` built by the
`for (let i = startPage; i <= endPage; i++) pages.push(i)` loop. -/
def intRange (a b : ℤ) : List ℤ :=
  List.map (fun i : ℕ => a + (i : ℤ)) (List.range (b + 1 - a).toNat)

/-- `generatePageNumbers` from `src/utils/pagination.js`: the window of page
numbers to display. -/
def generatePageNumbers (currentPage totalPages maxDisplay : ℤ) : List ℤ :=
  if totalPages ≤ 0 then []
  else
    let halfDisplay := ⌊(maxDisplay : ℚ) / 2⌋
    let startPage := max 1 (currentPage - halfDisplay)
    let endPage := min totalPages (startPage + maxDisplay - 1)
    let startPage :=
      if endPage - startPage + 1 < maxDisplay then max 1 (endPage - maxDisplay + 1)
      else startPage
    intRange startPage endPage

/-- Whether a value is `null` or `undefined` (the values whose property reads
throw). -/
def JSValue.nullish : JSValue → Bool
  | .null => true
  | .undefined => true
  | _ => false

/-- The tiered points formula exactly as the specification words it, for
comparison with the implementation: `2(a−100) + 50` above `100`, `a − 50`
between `50` and `100`, else `0`. -/
def specTierPoints (a : ℚ) : ℚ :=
  if a > 100 then 2 * (a - 100) + 50
  else if a > 50 then a - 50
  else 0

/-- The class of inputs the specification calls a valid positive amount: a
positive number, or a numeric string coercing to a positive number. -/
def specPositiveNumeric (v : JSValue) : Prop :=
  (∃ q : ℚ, v = .num q ∧ 0 < q) ∨
  (∃ (s : String) (q : ℚ), v = .str s ∧ jsStringToNumber s = some q ∧ 0 < q)

/-- The payload of a successful result, with a default for the error case. -/
def okD {α : Type} (e : Except String α) (d : α) : α :=
  match e with
  | .ok a => a
  | .error _ => d

/-- The value stored under a key of the monthly mapping, `0` when absent. -/
def lookupD (m : List (String × ℤ)) (k : String) : ℤ := (m.lookup k).getD 0

/-- Sum of all bucket values of the monthly mapping. -/
def sumValues (m : List (String × ℤ)) : ℤ := (m.map Prod.snd).sum

/-- The pure accumulator underlying `monthLoop` once every property read is
known to succeed. -/
def monthAcc (ts : List JSValue) (acc : List (String × ℤ)) : List (String × ℤ) :=
  ts.foldl (fun acc t => bumpKey acc (keyOf t) (calculateRewardPoints (amountOf t))) acc

/-- First-seen deduplication of a key sequence, continuing from the keys
already seen: the key order an insertion-ordered mapping ends up with. -/
def seenKeys (ks : List String) (acc : List String) : List String :=
  ks.foldl (fun acc k => if k ∈ acc then acc else acc ++ [k]) acc

/-- The pagination result exactly as the specification words it:
`totalPages = ceil(totalItems/itemsPerPage)`, the current page clamped into
`[1, totalPages]` (page `1` when there are no pages), 1-based inclusive
`startIndex = (effectivePage−1)·itemsPerPage + 1` and
`endIndex = min(startIndex + itemsPerPage − 1, totalItems)`, the items being
the sub-sequence covering positions `startIndex..endIndex`, and the two
has-page flags. -/
def specPaginate {α : Type} (l : List α) (currentPage itemsPerPage : ℤ) :
    PaginationResult α :=
  let totalItems : ℤ := l.length
  let totalPages : ℤ := ⌈(totalItems : ℚ) / (itemsPerPage : ℚ)⌉
  let eff : ℤ := max 1 (min currentPage totalPages)
  let startIndex : ℤ := (eff - 1) * itemsPerPage + 1
  let endIndex : ℤ := min (startIndex + itemsPerPage - 1) totalItems
  { items := (l.drop (startIndex - 1).toNat).take (endIndex - (startIndex - 1)).toNat
    currentPage := eff
    totalPages := totalPages
    totalItems := totalItems
    hasNextPage := decide (eff < totalPages)
    hasPrevPage := decide (1 < eff)
    startIndex := startIndex
    endIndex := endIndex }

/-- The page-number window exactly as the specification words it:
`half = floor(maxDisplay/2)`, `start = max(1, currentPage − half)`,
`end = min(totalPages, start + maxDisplay − 1)`, and when the window is
shorter than `maxDisplay` the start is shifted left to
`max(1, end − maxDisplay + 1)`; the result is `[start..end]` ascending. -/
def specWindow (currentPage totalPages maxDisplay : ℤ) : List ℤ :=
  let half := ⌊(maxDisplay : ℚ) / 2⌋
  let start := max 1 (currentPage - half)
  let stop := min totalPages (start + maxDisplay - 1)
  let start2 := if stop - start + 1 < maxDisplay then max 1 (stop - maxDisplay + 1) else start
  intRange start2 stop

theorem rawPoints_eq_spec (a : ℚ) : rawPoints a = specTierPoints a := by
  simp only [rawPoints, specTierPoints, REWARDS_CONFIG]
  split_ifs <;> ring

theorem calcRP_num_pos (a : ℚ) (h : 0 < a) :
    calculateRewardPoints (.num a) = jsRound (rawPoints a) := by
  simp [calculateRewardPoints, jsToNumber, not_le.mpr h]

theorem calcRP_num_nonpos (a : ℚ) (h : a ≤ 0) :
    calculateRewardPoints (.num a) = 0 := by
  simp [calculateRewardPoints, jsToNumber, h]

theorem jsRound_mono {a b : ℚ} (h : a ≤ b) : jsRound a ≤ jsRound b :=
  Int.floor_le_floor (by linarith)

theorem jsRound_nonneg {a : ℚ} (h : 0 ≤ a) : 0 ≤ jsRound a :=
  Int.le_floor.mpr (by push_cast; linarith)

theorem rawPoints_nonneg (a : ℚ) : 0 ≤ rawPoints a := by
  rw [rawPoints_eq_spec]
  unfold specTierPoints
  split_ifs <;> linarith

theorem rawPoints_mono {a b : ℚ} (h : a ≤ b) : rawPoints a ≤ rawPoints b := by
  rw [rawPoints_eq_spec, rawPoints_eq_spec]
  unfold specTierPoints
  split_ifs <;> linarith

theorem calcRP_nonneg (v : JSValue) : 0 ≤ calculateRewardPoints v := by
  unfold calculateRewardPoints
  rcases jsToNumber v with _ | q
  · simp
  · simp only
    split_ifs
    · exact le_refl 0
    · exact jsRound_nonneg (rawPoints_nonneg q)

/-- C1: for every valid positive amount, given as a number or as a numeric
string, `calculateRewardPoints` is the half-up rounding of the tiered value
`2(a−100)+50` above 100, `a−50` between 50 and 100, and `0` at or below 50,
with the rounding applied once to the final value; in particular the amounts
`120.25`, `100`, `120` and `200` give `91`, `50`, `90` and `250`. -/
theorem C1_points_are_rounded_tier_formula :
    (∀ a : ℚ, 0 < a → calculateRewardPoints (.num a) = jsRound (specTierPoints a)) ∧
    (∀ (s : String) (a : ℚ), jsStringToNumber s = some a → 0 < a →
      calculateRewardPoints (.str s) = jsRound (specTierPoints a)) ∧
    calculateRewardPoints (.num (481 / 4)) = 91 ∧
    calculateRewardPoints (.num 100) = 50 ∧
    calculateRewardPoints (.num 120) = 90 ∧
    calculateRewardPoints (.num 200) = 250 := by
  refine ⟨fun a ha => ?_, fun s a hs ha => ?_, ?_, ?_, ?_, ?_⟩
  · rw [calcRP_num_pos a ha, rawPoints_eq_spec]
  · have : calculateRewardPoints (.str s) = calculateRewardPoints (.num a) := by
      simp [calculateRewardPoints, jsToNumber, hs]
    rw [this, calcRP_num_pos a ha, rawPoints_eq_spec]
  · with_unfolding_all rfl
  · with_unfolding_all rfl
  · with_unfolding_all rfl
  · with_unfolding_all rfl

theorem C1_witness :
    jsStringToNumber "120.25" = some (481 / 4) ∧ (0 : ℚ) < 481 / 4 ∧
    calculateRewardPoints (.str "120.25") = jsRound (specTierPoints (481 / 4)) ∧
    jsRound (specTierPoints (481 / 4)) = 91 :=
  ⟨by with_unfolding_all rfl, by norm_num,
   C1_points_are_rounded_tier_formula.2.1 "120.25" (481 / 4)
     (by with_unfolding_all rfl) (by norm_num),
   by with_unfolding_all rfl⟩

/-- C2 counterexample: a single-element array wrapping a positive number is
not a number or numeric string, yet `calculateRewardPoints` does not return
`0` on it: `Number([60])` coerces to `60` through the array's joined string,
so `calculateRewardPoints([60]) = 10`. -/
theorem C2_counterexample :
    ¬ specPositiveNumeric (.array [.num 60]) ∧
    calculateRewardPoints (.array [.num 60]) = 10 := by
  constructor
  · rintro (⟨q, hq, -⟩ | ⟨s, q, hs, -, -⟩)
    · exact JSValue.noConfusion hq
    · exact JSValue.noConfusion hs
  · with_unfolding_all rfl

/-- C2 (amended): every input whose numeric coercion is NaN yields `0`, every
input whose numeric coercion is zero or negative yields `0` (this covers
`null`, `undefined`, non-numeric strings, zero and negative amounts), and for
every input whatsoever the result is a non-negative integer; however, an
input of another type whose numeric coercion is a positive number (such as a
single-element array wrapping a positive amount) yields the points of that
number rather than `0`. -/
theorem C2_invalid_inputs_yield_zero :
    (∀ v : JSValue, jsToNumber v = none → calculateRewardPoints v = 0) ∧
    (∀ (v : JSValue) (q : ℚ), jsToNumber v = some q → q ≤ 0 →
      calculateRewardPoints v = 0) ∧
    (∀ v : JSValue, 0 ≤ calculateRewardPoints v) := by
  refine ⟨fun v hv => ?_, fun v q hv hq => ?_, calcRP_nonneg⟩
  · simp [calculateRewardPoints, hv]
  · simp [calculateRewardPoints, hv, hq]

theorem C2_witness :
    jsToNumber .undefined = none ∧
    calculateRewardPoints .undefined = 0 ∧
    jsToNumber (.num (-50)) = some (-50) ∧ (-50 : ℚ) ≤ 0 ∧
    calculateRewardPoints (.num (-50)) = 0 ∧
    0 ≤ calculateRewardPoints (.str "75.75") :=
  ⟨rfl, C2_invalid_inputs_yield_zero.1 .undefined rfl, rfl, by norm_num,
   C2_invalid_inputs_yield_zero.2.1 (.num (-50)) (-50) rfl (by norm_num),
   C2_invalid_inputs_yield_zero.2.2 (.str "75.75")⟩

/-- C8: `calculateRewardPoints` is monotonically non-decreasing on numeric
amounts `0 ≤ a ≤ b`, and every amount at or below `50` yields `0`. -/
theorem C8_points_monotone :
    (∀ a b : ℚ, 0 ≤ a → a ≤ b →
      calculateRewardPoints (.num a) ≤ calculateRewardPoints (.num b)) ∧
    (∀ a : ℚ, a ≤ 50 → calculateRewardPoints (.num a) = 0) := by
  constructor
  · intro a b ha hab
    by_cases hpos : 0 < a
    · rw [calcRP_num_pos a hpos, calcRP_num_pos b (lt_of_lt_of_le hpos hab)]
      exact jsRound_mono (rawPoints_mono hab)
    · rw [calcRP_num_nonpos a (not_lt.mp hpos)]
      exact calcRP_nonneg _
  · intro a ha
    by_cases hpos : 0 < a
    · rw [calcRP_num_pos a hpos]
      have hraw : rawPoints a = 0 := by
        rw [rawPoints_eq_spec]
        unfold specTierPoints
        rw [if_neg (by linarith), if_neg (by linarith)]
      rw [hraw]
      unfold jsRound
      norm_num
    · exact calcRP_num_nonpos a (not_lt.mp hpos)

theorem C8_witness :
    (0 : ℚ) ≤ 60 ∧ (60 : ℚ) ≤ 120 ∧
    calculateRewardPoints (.num 60) ≤ calculateRewardPoints (.num 120) ∧
    (45 : ℚ) ≤ 50 ∧ calculateRewardPoints (.num 45) = 0 :=
  ⟨by norm_num, by norm_num,
   C8_points_monotone.1 60 120 (by norm_num) (by norm_num),
   by norm_num, C8_points_monotone.2 45 (by norm_num)⟩

theorem exceptBindOk {α β : Type} (a : α) (f : α → Except String β) :
    (Except.ok a >>= f) = f a := rfl

theorem getField_of_isObj (t : JSValue) (key : String) (h : t.isObj = true) :
    getField t key = .ok ((t.fields.lookup key).getD .undefined) := by
  cases t <;> simp_all [JSValue.isObj, getField, JSValue.fields]

theorem getField_of_not_nullish (t : JSValue) (key : String)
    (h : t.nullish = false) : ∃ v, getField t key = .ok v := by
  cases t <;> simp_all [JSValue.nullish, getField]

theorem totalLoop_of_objs (ts : List JSValue) (z : ℤ)
    (h : ∀ t ∈ ts, t.isObj = true) :
    totalLoop ts z =
      .ok (z + (ts.map (fun t => calculateRewardPoints (amountOf t))).sum) := by
  induction ts generalizing z with
  | nil => simp [totalLoop]
  | cons t ts ih =>
    have ht : getField t "amount" = .ok (amountOf t) :=
      getField_of_isObj t "amount" (h t (by simp))
    rw [totalLoop, ht]
    simp only [exceptBindOk]
    rw [ih (z + calculateRewardPoints (amountOf t)) (fun x hx => h x (by simp [hx]))]
    simp [add_assoc]

theorem totalLoop_isOk (ts : List JSValue) (z : ℤ)
    (h : ∀ t ∈ ts, t.nullish = false) : (totalLoop ts z).isOk = true := by
  induction ts generalizing z with
  | nil => simp [totalLoop, Except.isOk, Except.toBool]
  | cons t ts ih =>
    obtain ⟨v, hv⟩ := getField_of_not_nullish t "amount" (h t (by simp))
    rw [totalLoop, hv]
    simp only [exceptBindOk]
    exact ih _ (fun x hx => h x (by simp [hx]))

/-- C3 counterexample: `[null]` is an ordered sequence but not a sequence of
records, and `calculateTotalRewardPoints` raises a `TypeError` on it rather
than returning `0`. -/
theorem C3_counterexample :
    (calculateTotalRewardPoints (.array [.null])).isOk = false ∧
    calculateTotalRewardPoints (.array [.null]) ≠ .ok 0 := by
  constructor
  · with_unfolding_all rfl
  · intro h
    have h2 : (calculateTotalRewardPoints (.array [.null])).isOk = true := by
      rw [h]; rfl
    have h3 : (calculateTotalRewardPoints (.array [.null])).isOk = false := by
      with_unfolding_all rfl
    rw [h2] at h3
    exact Bool.noConfusion h3

/-- C3 (amended): for every array whose elements are all records (objects),
`calculateTotalRewardPoints` returns the sum of the points of each element's
`amount`, each element treated independently, with invalid or missing
amounts contributing `0`; every non-array input (such as `null`) returns
`0`; however, an array containing a `null` or `undefined` element raises a
`TypeError` instead of contributing `0`.  The example
`[{amount:120},{amount:null},{amount:-50},{amount:75}]` sums to `115`. -/
theorem C3_total_is_sum :
    (∀ ts : List JSValue, (∀ t ∈ ts, t.isObj = true) →
      calculateTotalRewardPoints (.array ts) =
        .ok ((ts.map (fun t => calculateRewardPoints (amountOf t))).sum)) ∧
    (∀ v : JSValue, v.isArr = false → calculateTotalRewardPoints v = .ok 0) := by
  constructor
  · intro ts h
    rw [calculateTotalRewardPoints, totalLoop_of_objs ts 0 h, zero_add]
  · intro v hv
    cases v <;> simp_all [JSValue.isArr, calculateTotalRewardPoints]

theorem C3_witness :
    (∀ t ∈ [JSValue.object [("amount", JSValue.num 120)],
            JSValue.object [("amount", JSValue.null)],
            JSValue.object [("amount", JSValue.num (-50))],
            JSValue.object [("amount", JSValue.num 75)]], t.isObj = true) ∧
    calculateTotalRewardPoints
      (.array [.object [("amount", .num 120)], .object [("amount", .null)],
               .object [("amount", .num (-50))], .object [("amount", .num 75)]]) =
      .ok 115 ∧
    (JSValue.null).isArr = false ∧
    calculateTotalRewardPoints .null = .ok 0 :=
  ⟨by decide,
   (C3_total_is_sum.1
     [.object [("amount", .num 120)], .object [("amount", .null)],
      .object [("amount", .num (-50))], .object [("amount", .num 75)]]
     (by decide)).trans (by with_unfolding_all rfl),
   rfl, C3_total_is_sum.2 .null rfl⟩

theorem monthLoop_isOk (ts : List JSValue) (acc : List (String × ℤ))
    (h : ∀ t ∈ ts, t.nullish = false) : (monthLoop ts acc).isOk = true := by
  induction ts generalizing acc with
  | nil => simp [monthLoop, Except.isOk, Except.toBool]
  | cons t ts ih =>
    obtain ⟨d, hd⟩ := getField_of_not_nullish t "date" (h t (by simp))
    obtain ⟨a, ha⟩ := getField_of_not_nullish t "amount" (h t (by simp))
    rw [monthLoop, hd]
    simp only [exceptBindOk, ha]
    exact ih _ (fun x hx => h x (by simp [hx]))

theorem enrichLoop_isOk (ts : List JSValue)
    (h : ∀ t ∈ ts, t.nullish = false) : (enrichLoop ts).isOk = true := by
  induction ts with
  | nil => simp [enrichLoop, Except.isOk, Except.toBool]
  | cons t ts ih =>
    obtain ⟨a, ha⟩ := getField_of_not_nullish t "amount" (h t (by simp))
    rw [enrichLoop, ha]
    simp only [exceptBindOk]
    have hok := ih (fun x hx => h x (by simp [hx]))
    rcases hr : enrichLoop ts with e | rest
    · rw [hr] at hok
      simp [Except.isOk, Except.toBool] at hok
    · simp [Except.isOk, Except.toBool]

/-- C7 counterexample: a sequence containing a `null` element makes the
collection operations raise a `TypeError` (reading a property of `null`)
instead of degrading to the operation's identity value. -/
theorem C7_counterexample :
    (calculateRewardPointsByMonth (.array [.null])).isOk = false ∧
    (addRewardPointsToTransactions (.array [.null])).isOk = false := by
  constructor
  · with_unfolding_all rfl
  · with_unfolding_all rfl

/-- C7 (amended): `calculateRewardPoints` never raises on any input, and the
three collection operations never raise on a non-sequence input (returning
`0`, the empty mapping and the empty sequence respectively) nor on a sequence
free of `null`/`undefined` elements; but a sequence containing a `null` or
`undefined` element makes `calculateTotalRewardPoints`,
`calculateRewardPointsByMonth` and `addRewardPointsToTransactions` raise a
`TypeError` when the element's properties are read. -/
theorem C7_no_raise_on_records :
    (∀ v : JSValue, v.isArr = false →
      calculateTotalRewardPoints v = .ok 0 ∧
      calculateRewardPointsByMonth v = .ok [] ∧
      addRewardPointsToTransactions v = .ok []) ∧
    (∀ ts : List JSValue, (∀ t ∈ ts, t.nullish = false) →
      (calculateTotalRewardPoints (.array ts)).isOk = true ∧
      (calculateRewardPointsByMonth (.array ts)).isOk = true ∧
      (addRewardPointsToTransactions (.array ts)).isOk = true) := by
  constructor
  · intro v hv
    refine ⟨?_, ?_, ?_⟩ <;>
      cases v <;>
        simp_all [JSValue.isArr, calculateTotalRewardPoints,
          calculateRewardPointsByMonth, addRewardPointsToTransactions]
  · intro ts h
    exact ⟨totalLoop_isOk ts 0 h, monthLoop_isOk ts [] h, enrichLoop_isOk ts h⟩

theorem C7_witness :
    (JSValue.str "not an array").isArr = false ∧
    calculateTotalRewardPoints (.str "not an array") = .ok 0 ∧
    calculateRewardPointsByMonth (.str "not an array") = .ok [] ∧
    addRewardPointsToTransactions (.str "not an array") = .ok [] ∧
    (calculateTotalRewardPoints
      (.array [.object [("amount", .str "bad")], .num 5])).isOk = true := by
  have h1 := C7_no_raise_on_records.1 (.str "not an array") rfl
  have h2 := C7_no_raise_on_records.2 [.object [("amount", .str "bad")], .num 5]
    (by decide)
  exact ⟨rfl, h1.1, h1.2.1, h1.2.2, h2.1⟩

theorem setKey_of_absent (fs : List (String × JSValue)) (key : String)
    (v : JSValue) (h : fs.any (fun p => p.1 = key) = false) :
    setKey fs key v = fs ++ [(key, v)] := by
  simp [setKey, h]

theorem enrichLoop_of_objs (ts : List JSValue)
    (h : ∀ t ∈ ts, t.isObj = true ∧ t.fields.any (fun p => p.1 = "rewardPoints") = false) :
    enrichLoop ts =
      .ok (ts.map (fun t => .object (t.fields ++
        [("rewardPoints", .num (calculateRewardPoints (amountOf t)))]))) := by
  induction ts with
  | nil => simp [enrichLoop]
  | cons t ts ih =>
    obtain ⟨hobj, habs⟩ := h t (by simp)
    have ha : getField t "amount" = .ok (amountOf t) :=
      getField_of_isObj t "amount" hobj
    rw [enrichLoop, ha]
    simp only [exceptBindOk]
    rw [ih (fun x hx => h x (by simp [hx]))]
    have hspread : jsSpread t = t.fields := by
      cases t <;> simp_all [JSValue.isObj, jsSpread, JSValue.fields]
    simp only [exceptBindOk, hspread, setKey_of_absent t.fields "rewardPoints" _ habs,
      List.map_cons]
    rfl

/-- C9: for every sequence of transaction records (objects, which per the
data model carry no `rewardPoints` field of their own),
`addRewardPointsToTransactions` returns one record per input transaction, in
input order, holding exactly the original fields in their original order
followed by the added `rewardPoints = calculateRewardPoints(amount)` field;
a non-sequence input yields the empty sequence.  (The model is purely
functional, so the input records are not mutated.) -/
theorem C9_enrich_preserves_fields :
    (∀ ts : List JSValue,
      (∀ t ∈ ts, t.isObj = true ∧
        t.fields.any (fun p => p.1 = "rewardPoints") = false) →
      addRewardPointsToTransactions (.array ts) =
        .ok (ts.map (fun t => .object (t.fields ++
          [("rewardPoints", .num (calculateRewardPoints (amountOf t)))])))) ∧
    (∀ v : JSValue, v.isArr = false → addRewardPointsToTransactions v = .ok []) := by
  constructor
  · intro ts h
    rw [addRewardPointsToTransactions, enrichLoop_of_objs ts h]
  · intro v hv
    cases v <;> simp_all [JSValue.isArr, addRewardPointsToTransactions]

theorem C9_witness :
    (∀ t ∈ [JSValue.object [("transactionId", JSValue.str "TXN001"), ("amount", JSValue.num 120)],
            JSValue.object [("transactionId", JSValue.str "TXN002"), ("amount", JSValue.num 75)]],
      t.isObj = true ∧ t.fields.any (fun p => p.1 = "rewardPoints") = false) ∧
    addRewardPointsToTransactions
      (.array [.object [("transactionId", .str "TXN001"), ("amount", .num 120)],
               .object [("transactionId", .str "TXN002"), ("amount", .num 75)]]) =
      .ok [.object [("transactionId", .str "TXN001"), ("amount", .num 120),
                    ("rewardPoints", .num 90)],
           .object [("transactionId", .str "TXN002"), ("amount", .num 75),
                    ("rewardPoints", .num 25)]] :=
  ⟨by decide,
   (C9_enrich_preserves_fields.1
     [.object [("transactionId", .str "TXN001"), ("amount", .num 120)],
      .object [("transactionId", .str "TXN002"), ("amount", .num 75)]]
     (by decide)).trans (by with_unfolding_all rfl)⟩

theorem monthLoop_of_objs (ts : List JSValue) (acc : List (String × ℤ))
    (h : ∀ t ∈ ts, t.isObj = true) :
    monthLoop ts acc = .ok (monthAcc ts acc) := by
  induction ts generalizing acc with
  | nil => simp [monthLoop, monthAcc]
  | cons t ts ih =>
    have hd : getField t "date" = .ok (dateOf t) :=
      getField_of_isObj t "date" (h t (by simp))
    have ha : getField t "amount" = .ok (amountOf t) :=
      getField_of_isObj t "amount" (h t (by simp))
    rw [monthLoop, hd]
    simp only [exceptBindOk, ha]
    rw [ih _ (fun x hx => h x (by simp [hx]))]
    rfl

theorem bumpKey_lookup_self (m : List (String × ℤ)) (k : String) (p : ℤ) :
    lookupD (bumpKey m k p) k = lookupD m k + p := by
  induction m with
  | nil => simp [bumpKey, lookupD]
  | cons e m ih =>
    obtain ⟨k', v⟩ := e
    by_cases hk : k' = k
    · subst hk
      simp [bumpKey, lookupD]
    · rw [bumpKey, if_neg hk]
      have hbeq : (k == k') = false := by
        simp [beq_iff_eq]
        exact fun he => hk he.symm
      simp only [lookupD, List.lookup, hbeq]
      exact ih

theorem bumpKey_lookup_ne (m : List (String × ℤ)) (k k' : String) (p : ℤ)
    (h : k' ≠ k) : lookupD (bumpKey m k p) k' = lookupD m k' := by
  induction m with
  | nil =>
    have hbeq : (k' == k) = false := by simp [beq_iff_eq, h]
    simp [bumpKey, lookupD, List.lookup, hbeq]
  | cons e m ih =>
    obtain ⟨k0, v⟩ := e
    by_cases hk : k0 = k
    · subst hk
      have hbeq : (k' == k0) = false := by simp [beq_iff_eq, h]
      simp [bumpKey, lookupD, List.lookup, hbeq]
    · rw [bumpKey, if_neg hk]
      by_cases hk2 : k' = k0
      · subst hk2
        simp [lookupD, List.lookup]
      · have hbeq : (k' == k0) = false := by simp [beq_iff_eq, hk2]
        simp only [lookupD, List.lookup, hbeq]
        exact ih

theorem bumpKey_keys (m : List (String × ℤ)) (k : String) (p : ℤ) :
    (bumpKey m k p).map Prod.fst =
      if k ∈ m.map Prod.fst then m.map Prod.fst else m.map Prod.fst ++ [k] := by
  induction m with
  | nil => simp [bumpKey]
  | cons e m ih =>
    obtain ⟨k0, v⟩ := e
    by_cases hk : k0 = k
    · subst hk
      simp [bumpKey]
    · rw [bumpKey, if_neg hk]
      have hne : ¬ k = k0 := fun he => hk he.symm
      by_cases hm : k ∈ m.map Prod.fst
      · simp [ih, hm, hne]
      · simp [ih, hm, hne]

theorem monthAcc_lookup (ts : List JSValue) (acc : List (String × ℤ)) (k : String) :
    lookupD (monthAcc ts acc) k =
      lookupD acc k +
        ((ts.filter (fun t => keyOf t == k)).map
          (fun t => calculateRewardPoints (amountOf t))).sum := by
  induction ts generalizing acc with
  | nil => simp [monthAcc]
  | cons t ts ih =>
    rw [monthAcc, List.foldl_cons]
    rw [show List.foldl
        (fun acc t => bumpKey acc (keyOf t) (calculateRewardPoints (amountOf t)))
        (bumpKey acc (keyOf t) (calculateRewardPoints (amountOf t))) ts =
      monthAcc ts (bumpKey acc (keyOf t) (calculateRewardPoints (amountOf t))) from rfl]
    rw [ih]
    by_cases hk : keyOf t = k
    · subst hk
      rw [bumpKey_lookup_self]
      simp [List.filter_cons]
      ring
    · rw [bumpKey_lookup_ne _ _ _ _ (fun he => hk he.symm)]
      have hbeq : (keyOf t == k) = false := by simp [beq_iff_eq, hk]
      simp [List.filter_cons, hbeq]

theorem monthAcc_keys (ts : List JSValue) (acc : List (String × ℤ)) :
    (monthAcc ts acc).map Prod.fst = seenKeys (ts.map keyOf) (acc.map Prod.fst) := by
  induction ts generalizing acc with
  | nil => simp [monthAcc, seenKeys]
  | cons t ts ih =>
    rw [monthAcc, List.foldl_cons]
    rw [show List.foldl
        (fun acc t => bumpKey acc (keyOf t) (calculateRewardPoints (amountOf t)))
        (bumpKey acc (keyOf t) (calculateRewardPoints (amountOf t))) ts =
      monthAcc ts (bumpKey acc (keyOf t) (calculateRewardPoints (amountOf t))) from rfl]
    rw [ih, bumpKey_keys]
    rfl

/-- C4 counterexample: a transaction with an unparseable date is not skipped:
the mapping gains a `"NaN-NaN"` bucket holding that transaction's points, so
the result is not the mapping containing only the valid months' keys. -/
theorem C4_counterexample :
    calculateRewardPointsByMonth
      (.array [.object [("amount", .num 120), ("date", .str "2025-01-15")],
               .object [("amount", .num 75), ("date", .str "invalid-date")]]) =
      .ok [("2025-01", 90), ("NaN-NaN", 25)] ∧
    ¬ calculateRewardPointsByMonth
      (.array [.object [("amount", .num 120), ("date", .str "2025-01-15")],
               .object [("amount", .num 75), ("date", .str "invalid-date")]]) =
      .ok [("2025-01", 90)] := by
  have h : calculateRewardPointsByMonth
      (.array [.object [("amount", .num 120), ("date", .str "2025-01-15")],
               .object [("amount", .num 75), ("date", .str "invalid-date")]]) =
      .ok [("2025-01", 90), ("NaN-NaN", 25)] := by
    with_unfolding_all rfl
  refine ⟨h, fun hc => ?_⟩
  rw [h] at hc
  have := Except.ok.inj hc
  exact absurd (congrArg List.length this) (by simp)

/-- C4 (amended): for every sequence of transaction records,
`calculateRewardPointsByMonth` adds each record's points to the bucket keyed
`"YYYY-MM"` of its parsed date, but a record whose date is unparseable is
not skipped: its points are added to the bucket keyed by the literal string
`"NaN-NaN"` (the other buckets' sums are unaffected); the mapping carries
its keys in first-seen insertion order. -/
theorem C4_unparseable_dates_bucket_NaN (ts : List JSValue)
    (h : ∀ t ∈ ts, t.isObj = true) :
    (∀ k : String,
      lookupD (okD (calculateRewardPointsByMonth (.array ts)) []) k =
        ((ts.filter (fun t => keyOf t == k)).map
          (fun t => calculateRewardPoints (amountOf t))).sum) ∧
    (okD (calculateRewardPointsByMonth (.array ts)) []).map Prod.fst =
      seenKeys (ts.map keyOf) [] ∧
    (∀ t : JSValue, jsDateYearMonth (dateOf t) = none → keyOf t = "NaN-NaN") := by
  have hm : calculateRewardPointsByMonth (.array ts) = .ok (monthAcc ts []) := by
    rw [calculateRewardPointsByMonth, monthLoop_of_objs ts [] h]
  refine ⟨fun k => ?_, ?_, fun t ht => ?_⟩
  · rw [hm]
    simpa [okD, lookupD] using monthAcc_lookup ts [] k
  · rw [hm]
    simpa [okD] using monthAcc_keys ts []
  · rw [keyOf, ht]
    rfl

theorem C4_witness :
    lookupD (okD (calculateRewardPointsByMonth
      (.array [.object [("amount", .num 120), ("date", .str "2025-01-15")],
               .object [("amount", .num 75), ("date", .str "2025-01-22")],
               .object [("amount", .num 200), ("date", .str "2025-02-10")],
               .object [("amount", .num 150), ("date", .str "2025-02-28")]])) [])
      "2025-01" = 115 ∧
    lookupD (okD (calculateRewardPointsByMonth
      (.array [.object [("amount", .num 120), ("date", .str "2025-01-15")],
               .object [("amount", .num 75), ("date", .str "2025-01-22")],
               .object [("amount", .num 200), ("date", .str "2025-02-10")],
               .object [("amount", .num 150), ("date", .str "2025-02-28")]])) [])
      "2025-02" = 400 ∧
    (okD (calculateRewardPointsByMonth
      (.array [.object [("amount", .num 120), ("date", .str "2025-01-15")],
               .object [("amount", .num 75), ("date", .str "2025-01-22")],
               .object [("amount", .num 200), ("date", .str "2025-02-10")],
               .object [("amount", .num 150), ("date", .str "2025-02-28")]])) []).map
      Prod.fst = ["2025-01", "2025-02"] := by
  obtain ⟨hval, hkeys, -⟩ := C4_unparseable_dates_bucket_NaN
    [.object [("amount", .num 120), ("date", .str "2025-01-15")],
     .object [("amount", .num 75), ("date", .str "2025-01-22")],
     .object [("amount", .num 200), ("date", .str "2025-02-10")],
     .object [("amount", .num 150), ("date", .str "2025-02-28")]]
    (by decide)
  exact ⟨(hval "2025-01").trans (by with_unfolding_all rfl),
         (hval "2025-02").trans (by with_unfolding_all rfl),
         hkeys.trans (by with_unfolding_all rfl)⟩

theorem sumValues_bumpKey (m : List (String × ℤ)) (k : String) (p : ℤ) :
    sumValues (bumpKey m k p) = sumValues m + p := by
  induction m with
  | nil => simp [bumpKey, sumValues]
  | cons e m ih =>
    obtain ⟨k0, v⟩ := e
    by_cases hk : k0 = k
    · subst hk
      simp [bumpKey, sumValues]
      ring
    · rw [bumpKey, if_neg hk]
      simp only [sumValues, List.map_cons, List.sum_cons] at ih ⊢
      rw [ih]
      ring

theorem sumValues_monthAcc (ts : List JSValue) (acc : List (String × ℤ)) :
    sumValues (monthAcc ts acc) =
      sumValues acc + (ts.map (fun t => calculateRewardPoints (amountOf t))).sum := by
  induction ts generalizing acc with
  | nil => simp [monthAcc]
  | cons t ts ih =>
    rw [monthAcc, List.foldl_cons]
    rw [show List.foldl
        (fun acc t => bumpKey acc (keyOf t) (calculateRewardPoints (amountOf t)))
        (bumpKey acc (keyOf t) (calculateRewardPoints (amountOf t))) ts =
      monthAcc ts (bumpKey acc (keyOf t) (calculateRewardPoints (amountOf t))) from rfl]
    rw [ih, sumValues_bumpKey]
    simp
    ring

/-- C10: for every array of records, the sum of all bucket values of
`calculateRewardPointsByMonth` equals `calculateTotalRewardPoints` of the
same array: every record's points land in exactly one bucket (the
`"NaN-NaN"` bucket for unparseable dates included), so no points are lost by
the monthly grouping regardless of date validity. -/
theorem C10_monthly_sum_equals_total (ts : List JSValue)
    (h : ∀ t ∈ ts, t.isObj = true) :
    sumValues (okD (calculateRewardPointsByMonth (.array ts)) []) =
      okD (calculateTotalRewardPoints (.array ts)) 0 := by
  rw [calculateRewardPointsByMonth, monthLoop_of_objs ts [] h,
    calculateTotalRewardPoints, totalLoop_of_objs ts 0 h]
  simpa [okD, sumValues] using sumValues_monthAcc ts []

theorem C10_witness :
    sumValues (okD (calculateRewardPointsByMonth
      (.array [.object [("amount", .num 120), ("date", .str "2025-01-15")],
               .object [("amount", .num 75), ("date", .str "invalid-date")],
               .object [("amount", .num 200), ("date", .str "2025-02-10")]])) []) =
      okD (calculateTotalRewardPoints
        (.array [.object [("amount", .num 120), ("date", .str "2025-01-15")],
                 .object [("amount", .num 75), ("date", .str "invalid-date")],
                 .object [("amount", .num 200), ("date", .str "2025-02-10")]])) 0 ∧
    okD (calculateTotalRewardPoints
      (.array [.object [("amount", .num 120), ("date", .str "2025-01-15")],
               .object [("amount", .num 75), ("date", .str "invalid-date")],
               .object [("amount", .num 200), ("date", .str "2025-02-10")]])) 0 = 365 :=
  ⟨C10_monthly_sum_equals_total
    [.object [("amount", .num 120), ("date", .str "2025-01-15")],
     .object [("amount", .num 75), ("date", .str "invalid-date")],
     .object [("amount", .num 200), ("date", .str "2025-02-10")]]
    (by decide),
   by with_unfolding_all rfl⟩

theorem jsSlice_eq_drop_take {α : Type} (l : List α) (s e : ℤ)
    (hs : 0 ≤ s) (he : 0 ≤ e) (hen : e ≤ (l.length : ℤ)) :
    jsSlice l s e = (l.drop s.toNat).take (e - s).toNat := by
  simp only [jsSlice]
  rw [if_neg (not_lt.mpr hs), if_neg (not_lt.mpr he), min_eq_left hen]
  by_cases hsn : s ≤ (l.length : ℤ)
  · rw [min_eq_left hsn]
  · rw [min_eq_right (le_of_not_le hsn)]
    have h1 : l.drop ((l.length : ℤ)).toNat = [] := by simp
    have h2 : l.drop s.toNat = [] := List.drop_eq_nil_of_le (by omega)
    rw [h1, h2, List.take_nil, List.take_nil]

/-- C5 counterexample: a non-sequence input is not treated exactly as the
empty sequence: the guard branch reports `startIndex = 0` while an empty
array yields `startIndex = (1−1)·itemsPerPage + 1 = 1`, so the two results
differ. -/
theorem C5_counterexample :
    calculatePagination (none : Option (List ℕ)) 5 10 ≠
      calculatePagination (some ([] : List ℕ)) 5 10 ∧
    (calculatePagination (none : Option (List ℕ)) 5 10).startIndex = 0 ∧
    (calculatePagination (some ([] : List ℕ)) 5 10).startIndex = 1 := by
  have h0 : (calculatePagination (none : Option (List ℕ)) 5 10).startIndex = 0 := by
    with_unfolding_all rfl
  have h1 : (calculatePagination (some ([] : List ℕ)) 5 10).startIndex = 1 := by
    with_unfolding_all rfl
  refine ⟨fun h => ?_, h0, h1⟩
  rw [h] at h0
  rw [h0] at h1
  exact absurd h1 (by norm_num)

/-- C5 (amended): for every sequence and every requested page, with a
positive page size, `calculatePagination` returns exactly the result the
specification describes — `totalPages = ceil(totalItems/itemsPerPage)`, the
page clamped into `[1, totalPages]` (page 1 with an empty slice when there
are no pages), 1-based `startIndex`/`endIndex`, the covered sub-sequence,
and the two flags; a non-sequence input yields the empty result, whose
`startIndex` (and `endIndex`) are `0` — not the `startIndex = 1` that the
empty sequence itself produces. -/
theorem C5_pagination_matches_spec :
    (∀ (α : Type) (l : List α) (currentPage itemsPerPage : ℤ),
      0 < itemsPerPage →
      calculatePagination (some l) currentPage itemsPerPage =
        specPaginate l currentPage itemsPerPage) ∧
    (∀ (α : Type) (currentPage itemsPerPage : ℤ),
      calculatePagination (none : Option (List α)) currentPage itemsPerPage =
        { items := [], currentPage := 1, totalPages := 0, totalItems := 0
          hasNextPage := false, hasPrevPage := false
          startIndex := 0, endIndex := 0 }) := by
  constructor
  · intro α l p ipp hipp
    unfold calculatePagination specPaginate
    simp only
    set n : ℤ := (l.length : ℤ) with hn
    set T : ℤ := ⌈(n : ℚ) / (ipp : ℚ)⌉ with hT
    set v : ℤ := max 1 (min p T) with hv
    have hv1 : 1 ≤ v := le_max_left 1 _
    have hs : 0 ≤ (v - 1) * ipp := mul_nonneg (by omega) hipp.le
    have hn0 : 0 ≤ n := by simp [hn]
    have he : 0 ≤ min ((v - 1) * ipp + ipp) n := le_min (by nlinarith) hn0
    have hen : min ((v - 1) * ipp + ipp) n ≤ n := min_le_right _ _
    rw [jsSlice_eq_drop_take l _ _ hs he hen]
    rw [show ((v - 1) * ipp + 1 + ipp - 1 : ℤ) = (v - 1) * ipp + ipp from by ring]
    rw [show ((v - 1) * ipp + 1 - 1 : ℤ) = (v - 1) * ipp from by ring]
  · intro α p ipp
    rfl

theorem C5_witness :
    (0 : ℤ) < 10 ∧
    calculatePagination (some (List.range 23)) 99 10 =
      specPaginate (List.range 23) 99 10 ∧
    calculatePagination (some (List.range 23)) 99 10 =
      { items := [20, 21, 22], currentPage := 3, totalPages := 3, totalItems := 23
        hasNextPage := false, hasPrevPage := true, startIndex := 21, endIndex := 23 } ∧
    calculatePagination (none : Option (List ℕ)) 7 10 =
      { items := [], currentPage := 1, totalPages := 0, totalItems := 0
        hasNextPage := false, hasPrevPage := false, startIndex := 0, endIndex := 0 } := by
  have hmain := C5_pagination_matches_spec.1 ℕ (List.range 23) 99 10 (by norm_num)
  exact ⟨by norm_num, hmain,
    hmain.trans (by with_unfolding_all rfl),
    C5_pagination_matches_spec.2 ℕ 7 10⟩

theorem intRange_length (a b : ℤ) : (intRange a b).length = (b + 1 - a).toNat := by
  rw [intRange, List.length_map, List.length_range]

/-- C6: `generatePageNumbers` returns the empty window when `totalPages ≤ 0`
and otherwise exactly the contiguous ascending window the specification
describes (`half = floor(maxDisplay/2)`, `start = max(1, currentPage − half)`,
`end = min(totalPages, start + maxDisplay − 1)`, with `start` shifted left to
`max(1, end − maxDisplay + 1)` when the window came out short); the window is
full-width whenever `totalPages ≥ maxDisplay ≥ 0`; and
`generatePageNumbers(5, 20, 5) = [3..7]`, `generatePageNumbers(1, 3, 5) = [1..3]`. -/
theorem C6_page_window_matches_spec :
    (∀ currentPage totalPages maxDisplay : ℤ, totalPages ≤ 0 →
      generatePageNumbers currentPage totalPages maxDisplay = []) ∧
    (∀ currentPage totalPages maxDisplay : ℤ, 0 < totalPages →
      generatePageNumbers currentPage totalPages maxDisplay =
        specWindow currentPage totalPages maxDisplay) ∧
    (∀ currentPage totalPages maxDisplay : ℤ, 0 ≤ maxDisplay →
      maxDisplay ≤ totalPages →
      (generatePageNumbers currentPage totalPages maxDisplay).length =
        maxDisplay.toNat) ∧
    generatePageNumbers 5 20 5 = [3, 4, 5, 6, 7] ∧
    generatePageNumbers 1 3 5 = [1, 2, 3] := by
  refine ⟨fun p T m hT => ?_, fun p T m hT => ?_, fun p T m hm hmT => ?_, ?_, ?_⟩
  · rw [generatePageNumbers, if_pos hT]
  · rw [generatePageNumbers, if_neg (not_le.mpr hT), specWindow]
  · by_cases hT : T ≤ 0
    · rw [generatePageNumbers, if_pos hT]
      simp
      omega
    · rw [generatePageNumbers, if_neg hT]
      simp only
      generalize ⌊(m : ℚ) / 2⌋ = halfD
      rw [intRange_length]
      split_ifs with hshort
      · omega
      · omega
  · with_unfolding_all rfl
  · with_unfolding_all rfl

theorem C6_witness :
    (0 : ℤ) < 20 ∧
    generatePageNumbers 5 20 5 = specWindow 5 20 5 ∧
    specWindow 5 20 5 = [3, 4, 5, 6, 7] ∧
    (0 : ℤ) ≤ 5 ∧ (5 : ℤ) ≤ 20 ∧
    (generatePageNumbers 5 20 5).length = (5 : ℤ).toNat :=
  ⟨by norm_num,
   C6_page_window_matches_spec.2.1 5 20 5 (by norm_num),
   by with_unfolding_all rfl,
   by norm_num, by norm_num,
   C6_page_window_matches_spec.2.2.1 5 20 5 (by norm_num) (by norm_num)⟩

end Rewards
